import Mathlib

/-!
Verification of the `leptos_config` configuration-resolution crate
(`src/leptos_config/src/lib.rs`).

The Rust source is shallowly embedded: pure Rust functions become Lean
functions, the process environment becomes an explicit lookup function
`String → Option String`, fallible Rust functions returning
`Result<T, LeptosConfigError>` become `Except LeptosConfigError T`, and a
Rust panic is represented by `Option.none`.  Strings are modelled as their
character lists (`String.data`); the documents and environment values the
claims exercise are ASCII, where Rust byte offsets and character offsets
coincide.
-/

set_option maxRecDepth 20000

/-- Modelled from the spec: the error taxonomy of `errors.rs` (the file is
not under `src/`; only `lib.rs` is).  Variants `ConfigNotFound`,
`ConfigSectionNotFound`, `EnvVarError` and `ConfigError` are the ones
`lib.rs` itself names; per spec section 7, coercion failures of
present-but-malformed environment values are reported as `EnvVarError`,
and merged-layer parse/deserialization failures as `ConfigError`. -/
inductive LeptosConfigError where
  | ConfigNotFound
  | ConfigSectionNotFound
  | EnvVarError (msg : String)
  | ConfigError (msg : String)
deriving DecidableEq, Repr

/-- The `Env` enum of the source (deployment environment tag). -/
inductive Env where
  | PROD
  | DEV
deriving DecidableEq, Repr

/-- The `ReloadWSProtocol` enum of the source (reload transport tag). -/
inductive ReloadWSProtocol where
  | WS
  | WSS
deriving DecidableEq, Repr

/-- Model of Rust `std::net::SocketAddr` restricted to the IPv4 form the
crate's defaults and the claims use: four octets and a port. -/
structure SocketAddr where
  o1 : Nat
  o2 : Nat
  o3 : Nat
  o4 : Nat
  port : Nat
deriving DecidableEq, Repr

/-- The `LeptosOptions` struct of the source, with its field order.
`output_name`, `site_root`, … keep the Rust names; `Arc<str>` fields are
plain strings, `u32` fields are `Nat` values below `2 ^ 32`. -/
structure LeptosOptions where
  output_name : String
  site_root : String
  site_pkg_dir : String
  env : Env
  site_addr : SocketAddr
  reload_port : Nat
  reload_external_port : Option Nat
  reload_ws_protocol : ReloadWSProtocol
  not_found_path : String
  hash_file : String
  hash_files : Bool
deriving DecidableEq, Repr

instance {ε α : Type} [DecidableEq ε] [DecidableEq α] : DecidableEq (Except ε α) := fun a b =>
  match a, b with
  | .ok x, .ok y => if h : x = y then .isTrue (by rw [h]) else .isFalse (by simp [h])
  | .error x, .error y => if h : x = y then .isTrue (by rw [h]) else .isFalse (by simp [h])
  | .ok _, .error _ => .isFalse (by simp)
  | .error _, .ok _ => .isFalse (by simp)

/-- ASCII lowercase table, modelling the effect of Rust's
`str::to_lowercase` on the ASCII inputs these parsers receive. -/
def lowerTable : List (Char × Char) :=
  [('A', 'a'), ('B', 'b'), ('C', 'c'), ('D', 'd'), ('E', 'e'), ('F', 'f'),
   ('G', 'g'), ('H', 'h'), ('I', 'i'), ('J', 'j'), ('K', 'k'), ('L', 'l'),
   ('M', 'm'), ('N', 'n'), ('O', 'o'), ('P', 'p'), ('Q', 'q'), ('R', 'r'),
   ('S', 's'), ('T', 't'), ('U', 'u'), ('V', 'v'), ('W', 'w'), ('X', 'x'),
   ('Y', 'y'), ('Z', 'z')]

/-- Lowercase one character via the table (identity off `A`–`Z`). -/
def rustCharToLower (c : Char) : Char := ((lowerTable.lookup c).getD c)

/-- Model of Rust `str::to_lowercase` (ASCII range). -/
def rustToLowercase (s : String) : String := String.mk (s.data.map rustCharToLower)

/-- The free function `env_from_str` of the source: lowercase the input,
accept `dev`/`development` and `prod`/`production`, otherwise return the
`EnvVarError` the source formats. -/
def env_from_str (input : String) : Except LeptosConfigError Env :=
  if rustToLowercase input = "dev" || rustToLowercase input = "development" then .ok Env.DEV
  else if rustToLowercase input = "prod" || rustToLowercase input = "production" then .ok Env.PROD
  else .error (.EnvVarError (input ++
    " is not a supported environment. Use either `dev` or `production`."))

/-- The `FromStr for Env` impl of the source: the lossy conversion, which
replaces any `env_from_str` failure by the default `DEV`.  Its Rust error
type is `()`, so the result type is `Except Unit Env` (always `ok`). -/
def Env.from_str (input : String) : Except Unit Env :=
  match env_from_str input with
  | .ok v => .ok v
  | .error _ => .ok Env.DEV

/-- The `From<&str> for Env` impl of the source, which calls
`env_from_str(str).unwrap_or_else(|err| panic!(..))`.  A Rust panic has no
value; it is modelled by `none`. -/
def Env.from_ref (s : String) : Option Env := (env_from_str s).toOption

/-- The free function `ws_from_str` of the source, including its dead
`"WS"`/`"WSS"` match arms (the scrutinee is already lowercased). -/
def ws_from_str (input : String) : Except LeptosConfigError ReloadWSProtocol :=
  if rustToLowercase input = "ws" || rustToLowercase input = "WS" then .ok ReloadWSProtocol.WS
  else if rustToLowercase input = "wss" || rustToLowercase input = "WSS" then
    .ok ReloadWSProtocol.WSS
  else .error (.EnvVarError (input ++
    " is not a supported websocket protocol. Use only `ws` or `wss`."))

/-- The `FromStr for ReloadWSProtocol` impl: lossy fallback to `WS`. -/
def ReloadWSProtocol.from_str (input : String) : Except Unit ReloadWSProtocol :=
  match ws_from_str input with
  | .ok v => .ok v
  | .error _ => .ok ReloadWSProtocol.WS

/-- The `From<&str> for ReloadWSProtocol` impl; `none` models the panic. -/
def ReloadWSProtocol.from_ref (s : String) : Option ReloadWSProtocol :=
  (ws_from_str s).toOption

theorem lookup_mem_of_eq_some {α β : Type} [DecidableEq α] :
    ∀ (l : List (α × β)) (k : α) (v : β), l.lookup k = some v → (k, v) ∈ l := by
  intro l
  induction l with
  | nil => intro k v h; simp [List.lookup] at h
  | cons p rest ih =>
    obtain ⟨a, b⟩ := p
    intro k v h
    rw [List.lookup] at h
    by_cases hk : k = a
    · subst hk
      simp at h
      subst h
      exact List.mem_cons_self _ _
    · simp [beq_false_of_ne hk] at h
      exact List.mem_cons_of_mem _ (ih k v h)

theorem rustCharToLower_idem (c : Char) :
    rustCharToLower (rustCharToLower c) = rustCharToLower c := by
  cases h : lowerTable.lookup c with
  | none =>
    unfold rustCharToLower
    rw [h]
    simp only [Option.getD_none]
    rw [h]
    simp only [Option.getD_none]
  | some v =>
    have hmem : (c, v) ∈ lowerTable := lookup_mem_of_eq_some lowerTable c v h
    have hall : ∀ p ∈ lowerTable, (lowerTable.lookup p.2) = none := by decide
    have h2 : lowerTable.lookup v = none := hall (c, v) hmem
    unfold rustCharToLower
    rw [h]
    simp only [Option.getD_some]
    rw [h2]
    simp only [Option.getD_none]

theorem rustToLowercase_idem (s : String) :
    rustToLowercase (rustToLowercase s) = rustToLowercase s := by
  have h : ∀ l : List Char, (l.map rustCharToLower).map rustCharToLower
      = l.map rustCharToLower := by
    intro l
    rw [List.map_map]
    apply List.map_congr_left
    intro a _
    simp only [Function.comp_apply]
    exact rustCharToLower_idem a
  show String.mk ((s.data.map rustCharToLower).map rustCharToLower)
      = String.mk (s.data.map rustCharToLower)
  rw [h]

/-- Character list of a decimal digit check. -/
def isDigitChar (c : Char) : Bool := decide ('0' ≤ c) && decide (c ≤ '9')

/-- Numeric value of a digit character (callers guard with `isDigitChar`). -/
def digitVal (c : Char) : Nat := c.toNat - '0'.toNat

/-- Fold a digit list into a natural number; `none` on empty or non-digit
input.  Models the core of Rust's unsigned `from_str`. -/
def digitsToNat (l : List Char) : Option Nat :=
  if l = [] then none
  else if l.all isDigitChar then some (l.foldl (fun acc c => acc * 10 + digitVal c) 0)
  else none

/-- Model of Rust `u32::from_str`: optional leading `+`, decimal digits,
value within `u32` range. -/
def parseU32Chars (l : List Char) : Option Nat :=
  let l' := match l with
    | '+' :: r => r
    | _ => l
  match digitsToNat l' with
  | some n => if n < 4294967296 then some n else none
  | none => none

/-- Model of Rust `bool::from_str`: exactly `true` or `false`. -/
def parseBoolRust (s : String) : Option Bool :=
  if s = "true" then some true
  else if s = "false" then some false
  else none

/-- Split a character list at a separator character (the separator is
dropped; `n` separators yield `n + 1` pieces). -/
def splitOnChar (sep : Char) : List Char → List (List Char)
  | [] => [[]]
  | c :: rest =>
    match splitOnChar sep rest with
    | [] => [[c]]
    | first :: others =>
      if c = sep then [] :: first :: others else (c :: first) :: others

/-- Model of Rust `Ipv4Addr` octet parsing: one to three digits, value at
most 255, and no leading zero (Rust std rejects `01`). -/
def parseOctet (l : List Char) : Option Nat :=
  match digitsToNat l with
  | none => none
  | some n =>
    if n ≤ 255 then
      match l with
      | '0' :: _ :: _ => none
      | _ => some n
    else none

/-- Model of Rust `SocketAddr::from_str` restricted to the IPv4 form
`a.b.c.d:port` (the IPv6 bracket form is outside the claims' inputs). -/
def parseSocketAddrChars (l : List Char) : Option SocketAddr :=
  match splitOnChar ':' l with
  | [ip, pstr] =>
    (match splitOnChar '.' ip with
     | [q1, q2, q3, q4] =>
       match parseOctet q1, parseOctet q2, parseOctet q3, parseOctet q4 with
       | some a, some b, some c, some d =>
         (match digitsToNat pstr with
          | some p => if p < 65536 then some ⟨a, b, c, d, p⟩ else none
          | none => none)
       | _, _, _, _ => none
     | _ => none)
  | _ => none

/-- Modelled from the spec: the `From<AddrParseError>` conversion of
`errors.rs` (not under `src/`), which per spec section 7 reports a
present-but-malformed value as `EnvVarError`. -/
def parseAddrE (s : String) : Except LeptosConfigError SocketAddr :=
  match parseSocketAddrChars s.data with
  | some a => .ok a
  | none => .error (.EnvVarError ("invalid socket address syntax: " ++ s))

/-- Modelled from the spec: the `From<ParseIntError>` conversion of
`errors.rs`, reported as `EnvVarError` per spec section 7. -/
def parseU32E (s : String) : Except LeptosConfigError Nat :=
  match parseU32Chars s.data with
  | some n => .ok n
  | none => .error (.EnvVarError ("invalid digit found in string: " ++ s))

/-- Modelled from the spec: the `From<ParseBoolError>` conversion of
`errors.rs`, reported as `EnvVarError` per spec section 7. -/
def parseBoolE (s : String) : Except LeptosConfigError Bool :=
  match parseBoolRust s with
  | some b => .ok b
  | none => .error (.EnvVarError ("provided string was not `true` or `false`: " ++ s))

/-- The source's `env_w_default`: read the variable, fall back to the
default when absent.  The process environment is an explicit lookup
function; the Rust `VarError::NotUnicode` branch has no counterpart in a
unicode-string environment model, so the result is total. -/
def env_w_default (envMap : String → Option String) (key dflt : String) : String :=
  (envMap key).getD dflt

/-- The source's `env_wo_default`: read the variable, `none` when absent. -/
def env_wo_default (envMap : String → Option String) (key : String) : Option String :=
  envMap key

/-- The builder default `default_output_name()`:
`env!("CARGO_CRATE_NAME").replace('-', "_")`, a compile-time constant equal
to `leptos_config` for this crate. -/
def default_output_name : String := "leptos_config"

/-- The builder default `default_site_root()`. -/
def default_site_root : String := "."

/-- The builder default `default_site_pkg_dir()`. -/
def default_site_pkg_dir : String := "pkg"

/-- The builder default `default_env()`. -/
def default_env : Env := Env.DEV

/-- The builder default `default_site_addr()`: `127.0.0.1:3000`. -/
def default_site_addr : SocketAddr := ⟨127, 0, 0, 1, 3000⟩

/-- The builder default `default_reload_port()`. -/
def default_reload_port : Nat := 3001

/-- The builder default `default_not_found_path()`. -/
def default_not_found_path : String := "/404"

/-- The builder default `default_hash_file_name()`. -/
def default_hash_file_name : String := "hash.txt"

/-- The builder default `default_hash_files()`. -/
def default_hash_files : Bool := false

/-- `Default for LeptosOptions`: `LeptosOptions::builder().build()`, i.e.
every field set to its builder default (`reload_external_port` and
`reload_ws_protocol` use `#[builder(default)]`, giving `None` and `WS`). -/
def defaultLeptosOptions : LeptosOptions :=
  { output_name := default_output_name
    site_root := default_site_root
    site_pkg_dir := default_site_pkg_dir
    env := default_env
    site_addr := default_site_addr
    reload_port := default_reload_port
    reload_external_port := none
    reload_ws_protocol := ReloadWSProtocol.WS
    not_found_path := default_not_found_path
    hash_file := default_hash_file_name
    hash_files := default_hash_files }

/-- `LeptosOptions::try_from_env`, with the process environment passed
explicitly and the compile-time `option_env!("LEPTOS_OUTPUT_NAME")`
fallback (`unwrap_or_default()` makes it the empty string when the
variable was absent at compile time) passed as `compiledOutputName`.
Fallible steps are chained in the source's field order; the `eprintln`
warning for an empty output name is a side effect with no influence on the
returned value and is not modelled. -/
def try_from_env (envMap : String → Option String) (compiledOutputName : String) :
    Except LeptosConfigError LeptosOptions :=
  match env_from_str (env_w_default envMap "LEPTOS_ENV" "DEV") with
  | .error e => .error e
  | .ok envTag =>
  match parseAddrE (env_w_default envMap "LEPTOS_SITE_ADDR" "127.0.0.1:3000") with
  | .error e => .error e
  | .ok addr =>
  match parseU32E (env_w_default envMap "LEPTOS_RELOAD_PORT" "3001") with
  | .error e => .error e
  | .ok rport =>
  match (match env_wo_default envMap "LEPTOS_RELOAD_EXTERNAL_PORT" with
         | some val => Except.map some (parseU32E val)
         | none => .ok none) with
  | .error e => .error e
  | .ok extPort =>
  match ws_from_str (env_w_default envMap "LEPTOS_RELOAD_WS_PROTOCOL" "ws") with
  | .error e => .error e
  | .ok wsTag =>
  match parseBoolE (env_w_default envMap "LEPTOS_HASH_FILES" "false") with
  | .error e => .error e
  | .ok hashFiles =>
  .ok { output_name := env_w_default envMap "LEPTOS_OUTPUT_NAME" compiledOutputName
        site_root := env_w_default envMap "LEPTOS_SITE_ROOT" "target/site"
        site_pkg_dir := env_w_default envMap "LEPTOS_SITE_PKG_DIR" "pkg"
        env := envTag
        site_addr := addr
        reload_port := rport
        reload_external_port := extPort
        reload_ws_protocol := wsTag
        not_found_path := env_w_default envMap "LEPTOS_NOT_FOUND_PATH" "/404"
        hash_file := env_w_default envMap "LEPTOS_HASH_FILE_NAME" "hash.txt"
        hash_files := hashFiles }

theorem env_from_str_shape (s : String) :
    (∃ v, env_from_str s = .ok v) ∨ ∃ m, env_from_str s = .error (.EnvVarError m) := by
  unfold env_from_str
  split
  · exact Or.inl ⟨_, rfl⟩
  · split
    · exact Or.inl ⟨_, rfl⟩
    · exact Or.inr ⟨_, rfl⟩

theorem ws_from_str_shape (s : String) :
    (∃ v, ws_from_str s = .ok v) ∨ ∃ m, ws_from_str s = .error (.EnvVarError m) := by
  unfold ws_from_str
  split
  · exact Or.inl ⟨_, rfl⟩
  · split
    · exact Or.inl ⟨_, rfl⟩
    · exact Or.inr ⟨_, rfl⟩

theorem parseAddrE_shape (s : String) :
    (∃ v, parseAddrE s = .ok v) ∨ ∃ m, parseAddrE s = .error (.EnvVarError m) := by
  unfold parseAddrE
  cases parseSocketAddrChars s.data
  · exact Or.inr ⟨_, rfl⟩
  · exact Or.inl ⟨_, rfl⟩

theorem parseU32E_shape (s : String) :
    (∃ v, parseU32E s = .ok v) ∨ ∃ m, parseU32E s = .error (.EnvVarError m) := by
  unfold parseU32E
  cases parseU32Chars s.data
  · exact Or.inr ⟨_, rfl⟩
  · exact Or.inl ⟨_, rfl⟩

theorem parseBoolE_shape (s : String) :
    (∃ v, parseBoolE s = .ok v) ∨ ∃ m, parseBoolE s = .error (.EnvVarError m) := by
  unfold parseBoolE
  cases parseBoolRust s
  · exact Or.inr ⟨_, rfl⟩
  · exact Or.inl ⟨_, rfl⟩

theorem extPort_shape (envMap : String → Option String) :
    (∃ v, (match env_wo_default envMap "LEPTOS_RELOAD_EXTERNAL_PORT" with
           | some val => Except.map some (parseU32E val)
           | none => (.ok none : Except LeptosConfigError (Option Nat))) = .ok v) ∨
    ∃ m, (match env_wo_default envMap "LEPTOS_RELOAD_EXTERNAL_PORT" with
          | some val => Except.map some (parseU32E val)
          | none => (.ok none : Except LeptosConfigError (Option Nat))) = .error (.EnvVarError m) := by
  cases env_wo_default envMap "LEPTOS_RELOAD_EXTERNAL_PORT" with
  | none => exact Or.inl ⟨_, rfl⟩
  | some val =>
    dsimp only
    rcases parseU32E_shape val with ⟨v, hv⟩ | ⟨m, hm⟩
    · rw [hv]
      exact Or.inl ⟨_, rfl⟩
    · rw [hm]
      exact Or.inr ⟨_, rfl⟩

/-- Claim C7: `try_from_env` (the engine behind `get_config_from_env`)
never fails with `ConfigSectionNotFound`: for every process environment
and every compile-time output-name fallback, the result is either a
settings value or an `EnvVarError` for a present-but-malformed variable. -/
theorem try_from_env_never_section_not_found
    (envMap : String → Option String) (compiledName : String) :
    (∃ opts, try_from_env envMap compiledName = .ok opts) ∨
    (∃ m, try_from_env envMap compiledName = .error (.EnvVarError m)) := by
  unfold try_from_env
  rcases env_from_str_shape (env_w_default envMap "LEPTOS_ENV" "DEV") with ⟨v1, h1⟩ | ⟨m1, h1⟩
  · rw [h1]
    rcases parseAddrE_shape (env_w_default envMap "LEPTOS_SITE_ADDR" "127.0.0.1:3000") with
      ⟨v2, h2⟩ | ⟨m2, h2⟩
    · rw [h2]
      rcases parseU32E_shape (env_w_default envMap "LEPTOS_RELOAD_PORT" "3001") with
        ⟨v3, h3⟩ | ⟨m3, h3⟩
      · rw [h3]
        rcases extPort_shape envMap with ⟨v4, h4⟩ | ⟨m4, h4⟩
        · rw [h4]
          rcases ws_from_str_shape (env_w_default envMap "LEPTOS_RELOAD_WS_PROTOCOL" "ws") with
            ⟨v5, h5⟩ | ⟨m5, h5⟩
          · rw [h5]
            rcases parseBoolE_shape (env_w_default envMap "LEPTOS_HASH_FILES" "false") with
              ⟨v6, h6⟩ | ⟨m6, h6⟩
            · rw [h6]
              exact Or.inl ⟨_, rfl⟩
            · rw [h6]
              exact Or.inr ⟨m6, rfl⟩
          · rw [h5]
            exact Or.inr ⟨m5, rfl⟩
        · rw [h4]
          exact Or.inr ⟨m4, rfl⟩
      · rw [h3]
        exact Or.inr ⟨m3, rfl⟩
    · rw [h2]
      exact Or.inr ⟨m2, rfl⟩
  · rw [h1]
    exact Or.inr ⟨m1, rfl⟩

/-- Claim C2 (counterexample): with no environment variables set and the
compile-time output-name fallback equal to the default crate name,
`try_from_env` does not return the all-defaults settings: every field
matches the defaults except `site_root`, which is `target/site` rather
than the data-model default `.`. -/
theorem try_from_env_defaults_counterexample :
    try_from_env (fun _ => none) "leptos_config"
      = .ok { defaultLeptosOptions with site_root := "target/site" } ∧
    ({ defaultLeptosOptions with site_root := "target/site" } : LeptosOptions)
      ≠ defaultLeptosOptions := by
  exact ⟨by decide, by decide⟩

/-- Claim C2 (amended): with no relevant environment variables set,
`try_from_env` returns `environment = DEV`, `reload_port = 3001`,
`hash_files = false` and the table defaults for the remaining fields,
except that `site_root` is the env-path fallback `target/site` and
`output_name` is the compile-time `LEPTOS_OUTPUT_NAME` value. -/
theorem try_from_env_no_vars_result (compiledName : String) :
    try_from_env (fun _ => none) compiledName
      = .ok { defaultLeptosOptions with
                output_name := compiledName, site_root := "target/site" } := rfl

/-- Environment assignment mapping every documented variable of the
env-only path to the textual form of its field's default value
(`LEPTOS_RELOAD_EXTERNAL_PORT` stays unset: its default is absence). -/
def envAllDefaults : String → Option String := fun k =>
  if k = "LEPTOS_OUTPUT_NAME" then some "leptos_config"
  else if k = "LEPTOS_SITE_ROOT" then some "."
  else if k = "LEPTOS_SITE_PKG_DIR" then some "pkg"
  else if k = "LEPTOS_ENV" then some "DEV"
  else if k = "LEPTOS_SITE_ADDR" then some "127.0.0.1:3000"
  else if k = "LEPTOS_RELOAD_PORT" then some "3001"
  else if k = "LEPTOS_RELOAD_WS_PROTOCOL" then some "WS"
  else if k = "LEPTOS_NOT_FOUND_PATH" then some "/404"
  else if k = "LEPTOS_HASH_FILE_NAME" then some "hash.txt"
  else if k = "LEPTOS_HASH_FILES" then some "false"
  else none

/-- Claim C8: resolving from an environment in which every documented
variable holds the textual form of its field's default value reproduces
the default-constructed settings exactly. -/
theorem env_defaults_round_trip :
    try_from_env envAllDefaults "" = .ok defaultLeptosOptions := by decide

/-- Claim C5: strict deployment-tag coercion of `staging` fails with the
unsupported-environment message under the `EnvVarError` kind, while the
lossy `FromStr` conversion of the same input returns `DEV` without
error. -/
theorem strict_staging_fails_lossy_defaults :
    env_from_str "staging" = .error (.EnvVarError
      ("staging is not a supported environment. Use either `dev` or `production`.")) ∧
    Env.from_str "staging" = .ok Env.DEV := by
  exact ⟨by decide, by decide⟩

theorem env_from_str_lower (s : String) :
    (env_from_str s).toOption = (env_from_str (rustToLowercase s)).toOption := by
  unfold env_from_str
  rw [rustToLowercase_idem s]
  split_ifs
  · rfl
  · rfl
  · rfl

theorem ws_from_str_lower (s : String) :
    (ws_from_str s).toOption = (ws_from_str (rustToLowercase s)).toOption := by
  unfold ws_from_str
  rw [rustToLowercase_idem s]
  split_ifs
  · rfl
  · rfl
  · rfl

theorem Env_lossy_lower (s : String) :
    Env.from_str s = Env.from_str (rustToLowercase s) := by
  have h := env_from_str_lower s
  unfold Env.from_str
  cases h1 : env_from_str s with
  | ok v =>
    cases h2 : env_from_str (rustToLowercase s) with
    | ok w =>
      rw [h1, h2] at h
      simp [Except.toOption] at h
      rw [h]
    | error e =>
      rw [h1, h2] at h
      simp [Except.toOption] at h
  | error e =>
    cases h2 : env_from_str (rustToLowercase s) with
    | ok w =>
      rw [h1, h2] at h
      simp [Except.toOption] at h
    | error f => rfl

theorem WS_lossy_lower (s : String) :
    ReloadWSProtocol.from_str s = ReloadWSProtocol.from_str (rustToLowercase s) := by
  have h := ws_from_str_lower s
  unfold ReloadWSProtocol.from_str
  cases h1 : ws_from_str s with
  | ok v =>
    cases h2 : ws_from_str (rustToLowercase s) with
    | ok w =>
      rw [h1, h2] at h
      simp [Except.toOption] at h
      rw [h]
    | error e =>
      rw [h1, h2] at h
      simp [Except.toOption] at h
  | error e =>
    cases h2 : ws_from_str (rustToLowercase s) with
    | ok w =>
      rw [h1, h2] at h
      simp [Except.toOption] at h
    | error f => rfl

/-- Claim C9: case-insensitivity is uniform across the strict and lossy
entry points of both enumerated-tag parsers: on every input each gives the
same outcome as on its lowercased form.  For the strict parsers the
outcome is the parse result (`toOption`): their error payload quotes the
original input verbatim, so only the message text can differ on rejected
input; the lossy parsers are compared as full values. -/
theorem case_insensitivity_uniform (s : String) :
    (env_from_str s).toOption = (env_from_str (rustToLowercase s)).toOption ∧
    Env.from_str s = Env.from_str (rustToLowercase s) ∧
    (ws_from_str s).toOption = (ws_from_str (rustToLowercase s)).toOption ∧
    ReloadWSProtocol.from_str s = ReloadWSProtocol.from_str (rustToLowercase s) :=
  ⟨env_from_str_lower s, Env_lossy_lower s, ws_from_str_lower s, WS_lossy_lower s⟩

/-- Claim C10: the third conversion entry points, `From<&str> for Env` and
`From<&str> for ReloadWSProtocol`, diverge on every input outside the
alias tables: they neither return an error value nor fall back to the
default, but panic (modelled as `none`). -/
theorem from_ref_outside_alias_table_panics (s : String)
    (h1 : rustToLowercase s ∉ (["dev", "development", "prod", "production"] : List String))
    (h2 : rustToLowercase s ∉ (["ws", "WS", "wss", "WSS"] : List String)) :
    Env.from_ref s = none ∧ ReloadWSProtocol.from_ref s = none := by
  simp only [List.mem_cons, List.not_mem_nil, or_false, not_or] at h1 h2
  obtain ⟨d1, d2, d3, d4⟩ := h1
  obtain ⟨w1, w2, w3, w4⟩ := h2
  unfold Env.from_ref ReloadWSProtocol.from_ref env_from_str ws_from_str
  simp [d1, d2, d3, d4, w1, w2, w3, w4, Except.toOption]

/-- Witness for claim C10 at the concrete input `staging`. -/
theorem from_ref_outside_alias_table_panics_witness :
    Env.from_ref "staging" = none ∧ ReloadWSProtocol.from_ref "staging" = none :=
  from_ref_outside_alias_table_panics "staging" (by decide) (by decide)

/-- One pattern position: `some c` matches exactly `c`; `none` is the
regex metacharacter `.`, which matches any character except newline. -/
def patAt : List (Option Char) → List Char → Bool
  | [], _ => true
  | _ :: _, [] => false
  | some p :: ps, c :: cs => decide (c = p) && patAt ps cs
  | none :: ps, c :: cs => decide (c ≠ '\n') && patAt ps cs

/-- Scan for the leftmost line-anchored match of a pattern, tracking the
current offset and whether the position starts a line (`(?m)^…`
semantics: offset `0` or right after a newline). -/
def findAux (pat : List (Option Char)) : Nat → Bool → List Char → Option Nat
  | i, atStart, [] => if atStart && patAt pat [] then some i else none
  | i, atStart, c :: rest =>
    if atStart && patAt pat (c :: rest) then some i
    else findAux pat (i + 1) (decide (c = '\n')) rest

/-- Leftmost line-anchored match offset of a pattern in a document. -/
def findPat (pat : List (Option Char)) (text : String) : Option Nat :=
  findAux pat 0 true text.data

/-- A pattern that matches a string literally. -/
def litPat (s : String) : List (Option Char) := s.data.map some

/-- The source regex `(?m)^\[package.metadata.leptos\]`: the two dots are
unescaped, so they are wildcards. -/
def singularPat : List (Option Char) :=
  litPat "[package" ++ [none] ++ litPat "metadata" ++ [none] ++ litPat "leptos]"

/-- The source regex `(?m)^\[\[workspace.metadata.leptos\]\]`, dots again
unescaped. -/
def workspacePat : List (Option Char) :=
  litPat "[[workspace" ++ [none] ++ litPat "metadata" ++ [none] ++ litPat "leptos]]"

/-- The literal `metadata_name` the source associates with the singular
pattern. -/
def singularMarker : String := "[package.metadata.leptos]"

/-- The literal `metadata_name` for the workspace pattern. -/
def workspaceMarker : String := "[[workspace.metadata.leptos]]"

/-- The section-locator step of `get_config_from_str`: try the singular
regex first, then the workspace one; return the match offset and the
marker literal, or `none` when neither pattern matches. -/
def locate (text : String) : Option (Nat × String) :=
  match findPat singularPat text with
  | some i => some (i, singularMarker)
  | none =>
    match findPat workspacePat text with
    | some i => some (i, workspaceMarker)
    | none => none

/-- Exact line-anchored occurrence of a marker string, following the
spec's words (the spec calls the anchors exact fixed strings); compared
against the code's wildcard patterns. -/
def occursLineAnchored (marker : String) (text : String) : Bool :=
  (findPat (litPat marker) text).isSome

/-- Literal prefix test on character lists. -/
def startsWithChars : List Char → List Char → Bool
  | [], _ => true
  | _ :: _, [] => false
  | p :: ps, c :: cs => decide (c = p) && startsWithChars ps cs

/-- Fuelled worker for `removeAll`; fuel at least the list length makes it
total structurally (each step consumes at least one character). -/
def removeAllFuel (nm : List Char) : Nat → List Char → List Char
  | _, [] => []
  | 0, l => l
  | fuel + 1, c :: rest =>
    if startsWithChars nm (c :: rest) then removeAllFuel nm fuel (List.drop (nm.length - 1) rest)
    else c :: removeAllFuel nm fuel rest

/-- Model of Rust `str::replace(nm, "")`: delete every non-overlapping
occurrence of `nm`, scanning left to right. -/
def removeAll (nm : List Char) (l : List Char) : List Char := removeAllFuel nm l.length l

/-- Whether `nm` occurs as a contiguous sublist. -/
def occursIn (nm : List Char) : List Char → Bool
  | [] => nm.isEmpty
  | c :: rest => startsWithChars nm (c :: rest) || occursIn nm rest

/-- Newline count, the quantity the source computes with
`text[..start].matches('\n').count()`. -/
def countNl (l : List Char) : Nat := l.count '\n'

/-- The line-preserving extractor of `get_config_from_str` (source lines
327–331): prepend as many newlines as precede the match offset, keep the
document from the offset on, then delete the marker literal
(`input.replace(metadata_name, "")`). -/
def extractToml (text : String) (start : Nat) (name : String) : List Char :=
  removeAll name.data
    (List.replicate (countNl (text.data.take start)) '\n' ++ text.data.drop start)

/-- A parsed configuration value of the key/value tree (the config crate's
`Value`, restricted to the scalar kinds a settings block uses). -/
inductive ConfVal where
  | str (s : String)
  | int (n : Int)
  | bool (b : Bool)
deriving DecidableEq, Repr

/-- Horizontal-whitespace test for TOML line trimming. -/
def isWsChar (c : Char) : Bool := c = ' ' || c = '\t' || c = '\r'

/-- Trim horizontal whitespace from both ends. -/
def trimChars (l : List Char) : List Char :=
  ((l.dropWhile isWsChar).reverse.dropWhile isWsChar).reverse

/-- Split a line at its first `=`, if any. -/
def splitEq : List Char → Option (List Char × List Char)
  | [] => none
  | c :: rest =>
    if c = '=' then some ([], rest)
    else
      match splitEq rest with
      | some (l, r) => some (c :: l, r)
      | none => none

/-- Valid bare-key character (letters, digits, `-`, `_`). -/
def isKeyChar (c : Char) : Bool :=
  isDigitChar c || decide ('a' ≤ c) && decide (c ≤ 'z')
    || decide ('A' ≤ c) && decide (c ≤ 'Z') || c = '-' || c = '_'

/-- Parse a scalar TOML value: a basic double-quoted string (no escapes —
the claims' documents use none), a boolean literal, or a decimal integer
with optional sign. -/
def parseValue (v : List Char) : Except String ConfVal :=
  match v with
  | '"' :: rest =>
    (match rest.reverse with
     | '"' :: mid =>
       if (mid.reverse).all (fun c => decide (c ≠ '"')) then .ok (.str (String.mk mid.reverse))
       else .error "invalid string value"
     | _ => .error "unterminated string")
  | _ =>
    if v = "true".data then .ok (.bool true)
    else if v = "false".data then .ok (.bool false)
    else
      match v with
      | '-' :: ds =>
        (match digitsToNat ds with
         | some n => .ok (.int (-(n : Int)))
         | none => .error "invalid value")
      | ds =>
        match digitsToNat ds with
        | some n => .ok (.int (n : Int))
        | none => .error "invalid value"

/-- Classification of one line of the extracted block. -/
inductive TomlLine where
  | blank
  | header
  | pair (k : String) (v : ConfVal)

/-- Parse one line: blank/comment lines are skipped, `[...]`/`[[...]]`
lines open a (nested) table, anything else must be `key = value`. -/
def parseTomlLine (l : List Char) : Except String TomlLine :=
  match trimChars l with
  | [] => .ok .blank
  | '#' :: _ => .ok .blank
  | '[' :: rest =>
    (match ('[' :: rest).reverse with
     | ']' :: _ => .ok .header
     | _ => .error "invalid table header")
  | t =>
    match splitEq t with
    | none => .error "expected key-value pair"
    | some (lhs, rhs) =>
      let k := trimChars lhs
      if k ≠ [] && k.all isKeyChar then
        match parseValue (trimChars rhs) with
        | .ok v => .ok (.pair (String.mk k) v)
        | .error e => .error e
      else .error "invalid key"

/-- Fold the lines of the block: keys seen before any table header are
top-level (the deserializer only reads top-level keys; keys under a header
are nested and invisible to it, and unknown keys are ignored). -/
def parseTomlLines (inSection : Bool) : List (List Char) → Except String (List (String × ConfVal))
  | [] => .ok []
  | ln :: rest =>
    match parseTomlLine ln with
    | .error e => .error e
    | .ok .blank => parseTomlLines inSection rest
    | .ok .header => parseTomlLines true rest
    | .ok (.pair k v) =>
      match parseTomlLines inSection rest with
      | .error e => .error e
      | .ok ps => if inSection then .ok ps else .ok ((k, v) :: ps)

/-- Model of the black-box "parse structured text into key/value tree"
collaborator (the config crate's TOML `File` source), restricted to the
line-oriented fragment the settings blocks use. -/
def parseTomlTop (l : List Char) : Except String (List (String × ConfVal)) :=
  parseTomlLines false (splitOnChar '\n' l)

/-- The config crate's string coercion (`Value::into_string`): integers
and booleans render to their textual form. -/
def coerceString : ConfVal → String
  | .str s => s
  | .int n => toString n
  | .bool b => if b then "true" else "false"

/-- Read an optional string field with its serde default. -/
def getStrD (m : String → Option ConfVal) (k d : String) : String :=
  match m k with
  | some v => coerceString v
  | none => d

/-- Deserialize a `u32` from a config value: in-range integers pass,
strings are parsed (the config crate coerces), booleans coerce to 0/1. -/
def coerceU32 : ConfVal → Except LeptosConfigError Nat
  | .int n => if 0 ≤ n && n < 4294967296 then .ok n.toNat
              else .error (.ConfigError "integer out of range for u32")
  | .str s =>
    (match parseU32Chars s.data with
     | some n => .ok n
     | none => .error (.ConfigError ("invalid integer value: " ++ s)))
  | .bool b => .ok (if b then 1 else 0)

/-- Serde enum deserialization for `Env`: the derive has no `rename_all`,
so only the exact variant names `PROD` and `DEV` are accepted. -/
def coerceEnvTag : ConfVal → Except LeptosConfigError Env
  | .str "DEV" => .ok Env.DEV
  | .str "PROD" => .ok Env.PROD
  | v => .error (.ConfigError ("unknown variant for Env: " ++ coerceString v))

/-- Serde enum deserialization for `ReloadWSProtocol` (`WS`/`WSS`). -/
def coerceWsTag : ConfVal → Except LeptosConfigError ReloadWSProtocol
  | .str "WS" => .ok ReloadWSProtocol.WS
  | .str "WSS" => .ok ReloadWSProtocol.WSS
  | v => .error (.ConfigError ("unknown variant for ReloadWSProtocol: " ++ coerceString v))

/-- Serde `SocketAddr` deserialization: a string parsed by the address
parser; other kinds are type errors. -/
def coerceAddr : ConfVal → Except LeptosConfigError SocketAddr
  | .str s =>
    (match parseSocketAddrChars s.data with
     | some a => .ok a
     | none => .error (.ConfigError ("invalid socket address: " ++ s)))
  | _ => .error (.ConfigError "invalid type for socket address")

/-- The config crate's boolean coercion (`Value::into_bool`): native
booleans, the usual string spellings, or 0/1 integers. -/
def coerceBoolVal : ConfVal → Except LeptosConfigError Bool
  | .bool b => .ok b
  | .str s =>
    if s = "true" || s = "1" || s = "yes" || s = "on" then .ok true
    else if s = "false" || s = "0" || s = "no" || s = "off" then .ok false
    else .error (.ConfigError ("invalid boolean value: " ++ s))
  | .int n =>
    if n = 1 then .ok true
    else if n = 0 then .ok false
    else .error (.ConfigError "invalid integer for boolean")

/-- The kebab-case keys of the `LeptosOptions` fields, as produced by
`#[serde(rename_all = "kebab-case")]` — the keys the merged tree is read
at.  Note the hash-file-name field is `hash_file`, hence key
`hash-file`. -/
def fieldKeys : List String :=
  ["output-name", "site-root", "site-pkg-dir", "env", "site-addr", "reload-port",
   "reload-external-port", "reload-ws-protocol", "not-found-path", "hash-file", "hash-files"]

/-- ASCII uppercase table (inverse of `lowerTable`). -/
def upperTable : List (Char × Char) :=
  [('a', 'A'), ('b', 'B'), ('c', 'C'), ('d', 'D'), ('e', 'E'), ('f', 'F'),
   ('g', 'G'), ('h', 'H'), ('i', 'I'), ('j', 'J'), ('k', 'K'), ('l', 'L'),
   ('m', 'M'), ('n', 'N'), ('o', 'O'), ('p', 'P'), ('q', 'Q'), ('r', 'R'),
   ('s', 'S'), ('t', 'T'), ('u', 'U'), ('v', 'V'), ('w', 'W'), ('x', 'X'),
   ('y', 'Y'), ('z', 'Z')]

/-- Kebab key character to environment-variable character: dash becomes
underscore, letters are uppercased. -/
def kebabToEnvChar (c : Char) : Char :=
  if c = '-' then '_' else (upperTable.lookup c).getD c

/-- The environment variable that the config crate's
`Environment::with_prefix("LEPTOS").convert_case(Case::Kebab)` source
associates with a kebab-case field key: prefix `LEPTOS_` plus the
upper-cased, underscore-separated key (e.g. `site-addr` ↦
`LEPTOS_SITE_ADDR`, `hash-file` ↦ `LEPTOS_HASH_FILE`). -/
def toEnvVar (k : String) : String := "LEPTOS_" ++ String.mk (k.data.map kebabToEnvChar)

/-- The merged source set of `get_config_from_str`: the environment layer
(whose values are strings) over the parsed file layer, per key. -/
def mergedLookup (fileMap : String → Option ConfVal) (envMap : String → Option String)
    (k : String) : Option ConfVal :=
  match envMap (toEnvVar k) with
  | some v => some (.str v)
  | none => fileMap k

/-- `try_deserialize::<LeptosOptions>()` on the merged tree: `output-name`
is required (it has no serde default); every other field falls back to its
serde default when absent from both layers. -/
def deserializeOptions (m : String → Option ConfVal) : Except LeptosConfigError LeptosOptions :=
  match m "output-name" with
  | none => .error (.ConfigError "missing field output_name")
  | some ov =>
  match ((match m "env" with
          | none => .ok Env.DEV
          | some v => coerceEnvTag v) : Except LeptosConfigError Env) with
  | .error e => .error e
  | .ok envTag =>
  match ((match m "site-addr" with
          | none => .ok default_site_addr
          | some v => coerceAddr v) : Except LeptosConfigError SocketAddr) with
  | .error e => .error e
  | .ok addr =>
  match ((match m "reload-port" with
          | none => .ok 3001
          | some v => coerceU32 v) : Except LeptosConfigError Nat) with
  | .error e => .error e
  | .ok rport =>
  match ((match m "reload-external-port" with
          | none => .ok none
          | some v => Except.map some (coerceU32 v)) : Except LeptosConfigError (Option Nat)) with
  | .error e => .error e
  | .ok extPort =>
  match ((match m "reload-ws-protocol" with
          | none => .ok ReloadWSProtocol.WS
          | some v => coerceWsTag v) : Except LeptosConfigError ReloadWSProtocol) with
  | .error e => .error e
  | .ok wsTag =>
  match ((match m "hash-files" with
          | none => .ok false
          | some v => coerceBoolVal v) : Except LeptosConfigError Bool) with
  | .error e => .error e
  | .ok hashFiles =>
  .ok { output_name := coerceString ov
        site_root := getStrD m "site-root" "."
        site_pkg_dir := getStrD m "site-pkg-dir" "pkg"
        env := envTag
        site_addr := addr
        reload_port := rport
        reload_external_port := extPort
        reload_ws_protocol := wsTag
        not_found_path := getStrD m "not-found-path" "/404"
        hash_file := getStrD m "hash-file" "hash.txt"
        hash_files := hashFiles }

/-- `get_config_from_str` (source lines 304–347), with the process
environment passed explicitly: locate the settings block with the two
regexes (`ConfigSectionNotFound` when neither matches), extract it with
line preservation and marker removal, parse it as TOML, layer the
`LEPTOS`-prefixed environment on top, and deserialize. -/
def get_config_from_str (text : String) (envMap : String → Option String) :
    Except LeptosConfigError LeptosOptions :=
  match locate text with
  | none => .error .ConfigSectionNotFound
  | some (start, name) =>
    match parseTomlTop (extractToml text start name) with
    | .error e => .error (.ConfigError e)
    | .ok pairs => deserializeOptions (mergedLookup (fun k => pairs.lookup k) envMap)

/-- Pattern `pat` is a generalization of the literal `m`: same length, and
each position is either the same literal character or a wildcard over a
non-newline character. -/
def patGeneralizes : List (Option Char) → List Char → Bool
  | [], [] => true
  | some p :: ps, c :: cs => decide (p = c) && patGeneralizes ps cs
  | none :: ps, c :: cs => decide (c ≠ '\n') && patGeneralizes ps cs
  | _, _ => false

theorem patAt_of_generalizes :
    ∀ (pat : List (Option Char)) (m cs : List Char),
      patGeneralizes pat m = true → startsWithChars m cs = true → patAt pat cs = true := by
  intro pat
  induction pat with
  | nil => intro m cs _ _; rfl
  | cons o ps ih =>
    intro m cs hg hs
    cases o with
    | some p =>
      cases m with
      | nil => simp [patGeneralizes] at hg
      | cons c' ms =>
        rw [patGeneralizes] at hg
        simp at hg
        obtain ⟨hpc, hg'⟩ := hg
        cases cs with
        | nil => simp [startsWithChars] at hs
        | cons d ds =>
          rw [startsWithChars] at hs
          simp at hs
          obtain ⟨hdc, hs'⟩ := hs
          rw [patAt]
          simp
          exact ⟨by rw [hdc, hpc], ih ms ds hg' hs'⟩
    | none =>
      cases m with
      | nil => simp [patGeneralizes] at hg
      | cons c' ms =>
        rw [patGeneralizes] at hg
        simp at hg
        obtain ⟨hnl, hg'⟩ := hg
        cases cs with
        | nil => simp [startsWithChars] at hs
        | cons d ds =>
          rw [startsWithChars] at hs
          simp at hs
          obtain ⟨hdc, hs'⟩ := hs
          rw [patAt]
          simp
          exact ⟨by rw [hdc]; exact hnl, ih ms ds hg' hs'⟩

theorem patAt_litPat :
    ∀ (m cs : List Char), patAt (m.map some) cs = startsWithChars m cs := by
  intro m
  induction m with
  | nil => intro cs; rfl
  | cons p ps ih =>
    intro cs
    cases cs with
    | nil => rfl
    | cons c rest =>
      rw [List.map_cons, patAt, startsWithChars, ih]

theorem findAux_mono (pat : List (Option Char)) (m : List Char)
    (hg : patGeneralizes pat m = true) :
    ∀ (cs : List Char) (i : Nat) (b : Bool),
      (findAux (m.map some) i b cs).isSome = true → (findAux pat i b cs).isSome = true := by
  intro cs
  induction cs with
  | nil =>
    intro i b h
    rw [findAux] at h
    split at h
    · rename_i hcond
      simp at hcond
      rw [findAux, if_pos]
      · rfl
      · simp
        rw [patAt_litPat] at hcond
        exact ⟨hcond.1, patAt_of_generalizes pat m [] hg hcond.2⟩
    · simp at h
  | cons c rest ih =>
    intro i b h
    rw [findAux] at h
    by_cases hc : (b && patAt (m.map some) (c :: rest)) = true
    · rw [patAt_litPat] at hc
      simp at hc
      rw [findAux, if_pos]
      · rfl
      · simp
        exact ⟨hc.1, patAt_of_generalizes pat m (c :: rest) hg hc.2⟩
    · rw [if_neg hc] at h
      rw [findAux]
      split
      · rfl
      · exact ih (i + 1) (decide (c = '\n')) h

theorem findPat_mono (pat : List (Option Char)) (marker text : String)
    (hg : patGeneralizes pat marker.data = true)
    (h : occursLineAnchored marker text = true) :
    (findPat pat text).isSome = true := by
  unfold occursLineAnchored findPat litPat at h
  unfold findPat
  exact findAux_mono pat marker.data hg text.data 0 true h

/-- Claim C6: whenever the singular marker occurs line-anchored (and even
when the workspace/array marker also occurs, possibly earlier), the
section locator returns the singular pattern's match: its offset and its
marker text are the ones handed to the extractor. -/
theorem singular_marker_takes_precedence (text : String)
    (h1 : occursLineAnchored singularMarker text = true)
    (h2 : occursLineAnchored workspaceMarker text = true) :
    ∃ i, findPat singularPat text = some i ∧ locate text = some (i, singularMarker) := by
  have hg : patGeneralizes singularPat singularMarker.data = true := by decide
  have hs : (findPat singularPat text).isSome = true := findPat_mono _ _ _ hg h1
  obtain ⟨i, hi⟩ := Option.isSome_iff_exists.mp hs
  refine ⟨i, hi, ?_⟩
  unfold locate
  rw [hi]

/-- A document whose workspace/array marker sits at offset 0 and whose
singular marker only appears later (offset 30). -/
def doc6 : String :=
  "[[workspace.metadata.leptos]]\n[package.metadata.leptos]\noutput-name = \"w\"\n"

/-- Witness for claim C6: on `doc6` both markers occur, the plural one
earlier, and the locator still selects the singular marker's match. -/
theorem singular_marker_takes_precedence_witness :
    ∃ i, findPat singularPat doc6 = some i ∧ locate doc6 = some (i, singularMarker) :=
  singular_marker_takes_precedence doc6 (by decide) (by decide)

/-- Claim C4 (amended): when neither of the two regex patterns matches
line-anchored (with their unescaped dots acting as wildcards),
`get_config_from_str` fails with `ConfigSectionNotFound`, for every
environment. -/
theorem no_pattern_match_gives_section_not_found (text : String)
    (envMap : String → Option String)
    (h1 : findPat singularPat text = none) (h2 : findPat workspacePat text = none) :
    get_config_from_str text envMap = .error .ConfigSectionNotFound := by
  unfold get_config_from_str locate
  rw [h1, h2]

/-- Witness for the amended claim C4 on a marker-free document. -/
theorem no_pattern_match_gives_section_not_found_witness :
    get_config_from_str "[dependencies]\nleptos = \"0.6\"\n" (fun _ => none)
      = .error .ConfigSectionNotFound :=
  no_pattern_match_gives_section_not_found _ _ (by decide) (by decide)

/-- A document containing neither exact marker at any line start, yet
matched by the singular regex because its unescaped dots accept `X`. -/
def doc4 : String := "[packageXmetadataXleptos]\noutput-name = \"app\"\n"

/-- Claim C4 (counterexample): `doc4` contains neither the singular nor
the plural marker line, yet resolution does not fail with
`ConfigSectionNotFound` (the wildcard dots of the source regexes match it,
and the pipeline proceeds to a deserialization error instead). -/
theorem wildcard_match_defeats_section_not_found :
    occursLineAnchored singularMarker doc4 = false ∧
    occursLineAnchored workspaceMarker doc4 = false ∧
    get_config_from_str doc4 (fun _ => none) ≠ .error .ConfigSectionNotFound := by
  exact ⟨by decide, by decide, by decide⟩

/-- The claim C1 counterexample document: the settings block sets
`hash-file`, overridden (per the claim) by `LEPTOS_HASH_FILE_NAME`. -/
def doc1 : String :=
  "[package.metadata.leptos]\noutput-name = \"app\"\nhash-file = \"file-a.txt\"\n"

/-- Environment holding the documented `LEPTOS_HASH_FILE_NAME` variable. -/
def env1 : String → Option String := fun k =>
  if k = "LEPTOS_HASH_FILE_NAME" then some "env-b.txt" else none

/-- Environment holding `LEPTOS_HASH_FILE`, the variable the config
crate's prefix/case conversion actually associates with the `hash_file`
field. -/
def env1b : String → Option String := fun k =>
  if k = "LEPTOS_HASH_FILE" then some "env-b.txt" else none

/-- Claim C1 (counterexample): with `LEPTOS_HASH_FILE_NAME` set,
`get_config_from_str` keeps the file-layer value of the hash-file-name
field — the documented variable does not override it on the from-text
path. -/
theorem hash_file_name_var_ignored_from_text :
    (get_config_from_str doc1 env1).map (fun o => o.hash_file) = .ok "file-a.txt" ∧
    ("file-a.txt" : String) ≠ "env-b.txt" := by
  exact ⟨by decide, by decide⟩

/-- Claim C1 (amended): in the merged source set of the from-text path, an
environment variable named with the `LEPTOS_` prefix plus the upper-cased,
underscore-separated field key overrides the parsed file value of that
field, for every recognized field key; for the hash-file-name field
(struct field `hash_file`, key `hash-file`) that variable is
`LEPTOS_HASH_FILE`, not the documented `LEPTOS_HASH_FILE_NAME`, and with
`LEPTOS_HASH_FILE` set the override is visible end to end. -/
theorem env_layer_overrides_file_layer_per_field (fileMap : String → Option ConfVal)
    (envMap : String → Option String) (k v : String)
    (hk : k ∈ fieldKeys) (hv : envMap (toEnvVar k) = some v) :
    mergedLookup fileMap envMap k = some (ConfVal.str v) ∧
    toEnvVar "hash-file" = "LEPTOS_HASH_FILE" ∧
    (get_config_from_str doc1 env1b).map (fun o => o.hash_file) = .ok "env-b.txt" := by
  refine ⟨?_, by decide, by decide⟩
  unfold mergedLookup
  rw [hv]

/-- Witness for the amended claim C1 at the `hash-file` key. -/
theorem env_layer_overrides_file_layer_per_field_witness :
    mergedLookup (fun _ => some (ConfVal.str "file-a.txt")) env1b "hash-file"
      = some (ConfVal.str "env-b.txt") ∧
    toEnvVar "hash-file" = "LEPTOS_HASH_FILE" ∧
    (get_config_from_str doc1 env1b).map (fun o => o.hash_file) = .ok "env-b.txt" :=
  env_layer_overrides_file_layer_per_field _ env1b "hash-file" "env-b.txt"
    (by decide) (by decide)

theorem startsWithChars_eq_append :
    ∀ (p l : List Char), startsWithChars p l = true → l = p ++ l.drop p.length := by
  intro p
  induction p with
  | nil => intro l _; simp
  | cons a ps ih =>
    intro l h
    cases l with
    | nil => simp [startsWithChars] at h
    | cons c rest =>
      rw [startsWithChars] at h
      simp at h
      obtain ⟨hca, h'⟩ := h
      calc c :: rest = a :: rest := by rw [hca]
        _ = a :: (ps ++ rest.drop ps.length) := by rw [← ih rest h']
        _ = (a :: ps) ++ (c :: rest).drop (a :: ps).length := by
              rw [List.cons_append, List.length_cons, List.drop_succ_cons]

theorem removeAllFuel_no_occur (nm : List Char) :
    ∀ (l : List Char) (fuel : Nat), occursIn nm l = false → removeAllFuel nm fuel l = l := by
  intro l
  induction l with
  | nil => intro fuel _; cases fuel <;> rfl
  | cons c rest ih =>
    intro fuel h
    rw [occursIn] at h
    simp at h
    obtain ⟨h1, h2⟩ := h
    cases fuel with
    | zero => rfl
    | succ f =>
      rw [removeAllFuel, if_neg]
      · rw [ih f h2]
      · simp [h1]

theorem removeAll_of_startsWith (nm l : List Char) (hne : nm ≠ [])
    (hs : startsWithChars nm l = true)
    (hno : occursIn nm (l.drop nm.length) = false) :
    removeAll nm l = l.drop nm.length := by
  cases nm with
  | nil => exact absurd rfl hne
  | cons a ps =>
    cases l with
    | nil => simp [startsWithChars] at hs
    | cons c rest =>
      unfold removeAll
      rw [List.length_cons, removeAllFuel, if_pos hs]
      have hdrop : (a :: ps).length - 1 = ps.length := by simp
      rw [hdrop]
      rw [List.length_cons, List.drop_succ_cons] at hno
      rw [List.length_cons, List.drop_succ_cons]
      exact removeAllFuel_no_occur _ _ _ hno

theorem removeAllFuel_replicate (a : Char) (ps : List Char) (hnl : a ≠ '\n') :
    ∀ (K fuel : Nat) (l : List Char),
      removeAllFuel (a :: ps) (K + fuel) (List.replicate K '\n' ++ l)
        = List.replicate K '\n' ++ removeAllFuel (a :: ps) fuel l := by
  intro K
  induction K with
  | zero => intro fuel l; simp
  | succ k ih =>
    intro fuel l
    rw [List.replicate_succ, List.cons_append]
    have harith : k + 1 + fuel = (k + fuel) + 1 := by omega
    rw [harith, removeAllFuel, if_neg]
    · rw [ih fuel l, List.cons_append]
    · rw [startsWithChars]
      simp
      intro hc
      exact absurd hc.symm hnl

theorem removeAll_replicate_append (a : Char) (ps l : List Char) (hnl : a ≠ '\n') (K : Nat) :
    removeAll (a :: ps) (List.replicate K '\n' ++ l)
      = List.replicate K '\n' ++ removeAll (a :: ps) l := by
  unfold removeAll
  rw [List.length_append, List.length_replicate]
  exact removeAllFuel_replicate a ps hnl K l.length l

theorem locate_name (text : String) (start : Nat) (name : String)
    (h : locate text = some (start, name)) :
    name = singularMarker ∨ name = workspaceMarker := by
  unfold locate at h
  cases h1 : findPat singularPat text with
  | some i =>
    rw [h1] at h
    simp at h
    exact Or.inl h.2.symm
  | none =>
    rw [h1] at h
    cases h2 : findPat workspacePat text with
    | some i =>
      rw [h2] at h
      simp at h
      exact Or.inr h.2.symm
    | none =>
      rw [h2] at h
      simp at h

theorem extract_core (cs nm : List Char) (start K j : Nat)
    (a : Char) (ps : List Char) (hnm : nm = a :: ps) (hanl : a ≠ '\n')
    (hcnt : countNl nm = 0)
    (hK : countNl (cs.take start) = K)
    (hm : startsWithChars nm (cs.drop start) = true)
    (hu : occursIn nm (cs.drop (start + nm.length)) = false) :
    removeAll nm (List.replicate K '\n' ++ cs.drop start)
        = List.replicate K '\n' ++ cs.drop (start + nm.length) ∧
    countNl ((List.replicate K '\n' ++ cs.drop (start + nm.length)).take (K + j))
        = countNl (cs.take (start + nm.length + j)) ∧
    countNl ((List.replicate K '\n' ++ cs.drop (start + nm.length)).take K) = K := by
  subst hnm
  have hdd : (cs.drop start).drop (a :: ps).length = cs.drop (start + (a :: ps).length) := by
    rw [List.drop_drop]
  have hd : cs.drop start = (a :: ps) ++ cs.drop (start + (a :: ps).length) := by
    have hx := startsWithChars_eq_append (a :: ps) (cs.drop start) hm
    rw [hdd] at hx
    exact hx
  have h1 : removeAll (a :: ps) (List.replicate K '\n' ++ cs.drop start)
      = List.replicate K '\n' ++ cs.drop (start + (a :: ps).length) := by
    rw [removeAll_replicate_append a ps (cs.drop start) hanl K]
    rw [removeAll_of_startsWith (a :: ps) (cs.drop start) (by simp) hm (by rw [hdd]; exact hu)]
    rw [hdd]
  have htake : ∀ jj : Nat,
      countNl ((List.replicate K '\n' ++ cs.drop (start + (a :: ps).length)).take (K + jj))
        = K + countNl ((cs.drop (start + (a :: ps).length)).take jj) := by
    intro jj
    rw [List.take_append_eq_append_take, List.take_replicate, List.length_replicate]
    have hmin : min (K + jj) K = K := by omega
    have hsub : K + jj - K = jj := by omega
    rw [hmin, hsub]
    unfold countNl
    rw [List.count_append, List.count_replicate_self]
  have hrhs : countNl (cs.take (start + (a :: ps).length + j))
      = K + countNl ((cs.drop (start + (a :: ps).length)).take j) := by
    have e1 : start + (a :: ps).length + j = start + ((a :: ps).length + j) := by omega
    rw [e1, List.take_add, hd, List.take_append_eq_append_take]
    have hlen : (a :: ps).length ≤ (a :: ps).length + j := by omega
    rw [List.take_of_length_le hlen]
    have hsub2 : (a :: ps).length + j - (a :: ps).length = j := by omega
    rw [hsub2]
    unfold countNl
    unfold countNl at hK hcnt
    rw [List.count_append, List.count_append, hK, hcnt]
    omega
  refine ⟨h1, ?_, ?_⟩
  · rw [htake j, hrhs]
  · have h0 := htake 0
    rw [Nat.add_zero] at h0
    rw [h0]
    simp [countNl]

/-- Claim C3: when the locator matches at `start` with marker `name`, and
the match is the literal marker (occurring only there), the extractor
output is exactly K newline characters (K = newlines preceding the match)
followed by the document text from the match offset onward with the marker
text removed; moreover the newline count — and hence the 1-based line
number a downstream parser reports — of every prefix of the output agrees
with that of the corresponding prefix of the original document
(position `K + j` of the output corresponds to original position
`start + |name| + j`), and the block's first content position sits after
exactly K newlines, i.e. on line K+1, not line 1. -/
theorem extractor_preserves_line_numbers (text : String) (start K j : Nat) (name : String)
    (h : locate text = some (start, name))
    (hK : countNl (text.data.take start) = K)
    (hm : startsWithChars name.data (text.data.drop start) = true)
    (hu : occursIn name.data (text.data.drop (start + name.data.length)) = false) :
    extractToml text start name
        = List.replicate K '\n' ++ text.data.drop (start + name.data.length) ∧
    countNl ((extractToml text start name).take (K + j))
        = countNl (text.data.take (start + name.data.length + j)) ∧
    countNl ((extractToml text start name).take K) = K := by
  rcases locate_name text start name h with h' | h'
  · subst h'
    have hcore := extract_core text.data singularMarker.data start K j
      '[' ("package.metadata.leptos]" : String).data (by decide) (by decide) (by decide)
      hK hm hu
    obtain ⟨hc1, hc2, hc3⟩ := hcore
    unfold extractToml
    rw [hK]
    refine ⟨hc1, ?_, ?_⟩
    · rw [hc1]
      exact hc2
    · rw [hc1]
      exact hc3
  · subst h'
    have hcore := extract_core text.data workspaceMarker.data start K j
      '[' ("[workspace.metadata.leptos]]" : String).data (by decide) (by decide) (by decide)
      hK hm hu
    obtain ⟨hc1, hc2, hc3⟩ := hcore
    unfold extractToml
    rw [hK]
    refine ⟨hc1, ?_, ?_⟩
    · rw [hc1]
      exact hc2
    · rw [hc1]
      exact hc3

/-- A document whose marker line is preceded by K = 2 newlines. -/
def doc3 : String := "x = 1\ny = 2\n[package.metadata.leptos]\nenv = \"DEV\"\n"

/-- Witness for claim C3 on `doc3`: marker at offset 12 after 2 newlines,
checked at output offset `j = 1`. -/
theorem extractor_preserves_line_numbers_witness :
    extractToml doc3 12 singularMarker
        = List.replicate 2 '\n' ++ doc3.data.drop (12 + singularMarker.data.length) ∧
    countNl ((extractToml doc3 12 singularMarker).take (2 + 1))
        = countNl (doc3.data.take (12 + singularMarker.data.length + 1)) ∧
    countNl ((extractToml doc3 12 singularMarker).take 2) = 2 :=
  extractor_preserves_line_numbers doc3 12 2 1 singularMarker
    (by decide) (by decide) (by decide) (by decide)
